import Mathlib

/-!
# Verification of the `omics` ExpressionSet data model and its serialization bridge

Shallow embedding of `omics/expression/ExpressionSet.py` and
`omics/io/ExpressionSetIO.py` (pandas-based code, 2016-era pandas semantics):

* A pandas `DataFrame` is modelled as a row-label list (`index`) together with a
  list of named, dtyped columns.
* Python `assert` failures are modelled as `OmicsError.assertionFailed`; the
  `ValueError("Lengths must match to compare")` that pandas raises when two
  indexes of different lengths are compared with `==` is modelled as
  `OmicsError.lengthMismatch`.  The specification's `AlignmentError` taxon
  covers exactly these two synchronous alignment failures
  (`OmicsError.isAlignment`).
* `pd.HDFStore` is modelled as an association list of named tables plus an
  association list of named series; `store[key]` on a missing key raises
  `OmicsError.keyError`.
* Positional access `index[0]` / `index[-1]` on an empty index raises
  `OmicsError.indexError`.
-/

set_option autoImplicit false

namespace Omics

/-- Cell values held by a dataframe column. -/
inductive Cell where
  | int : Int → Cell
  | str : String → Cell
  deriving DecidableEq

/-- Pandas dtypes relevant to `_parse_rdataframe`'s categorical inference:
`select_dtypes(include=['integer', 'object'])` keeps integer- and
object-dtyped columns, skipping floating and categorical ones. -/
inductive Dtype where
  | integer
  | floating
  | object
  | category
  deriving DecidableEq

/-- A named dataframe column: name, dtype and the list of cell values
(one per row of the frame). -/
structure Column where
  name : String
  dtype : Dtype
  values : List Cell
  deriving DecidableEq

/-- A pandas `DataFrame`: row labels (`df.index`) and named columns. -/
structure DataFrame where
  index : List String
  cols : List Column
  deriving DecidableEq

/-- `df.columns`: the list of column labels. -/
def DataFrame.columns (df : DataFrame) : List String :=
  df.cols.map Column.name

/-- `df.empty`: true iff either axis has length 0. -/
def DataFrame.empty (df : DataFrame) : Bool :=
  df.index.isEmpty || df.cols.isEmpty

/-- `pd.DataFrame()`: the empty dataframe. -/
def emptyDF : DataFrame := ⟨[], []⟩

/-- Errors surfaced by the embedded operations.  `assertionFailed` is a failed
Python `assert`; `lengthMismatch` is pandas' `ValueError` from comparing
indexes of different lengths; `keyError` is a missing key in an `HDFStore`;
`indexError` is out-of-range positional access. -/
inductive OmicsError where
  | assertionFailed
  | lengthMismatch
  | keyError : String → OmicsError
  | indexError
  deriving DecidableEq

/-- The spec's `AlignmentError` taxon: the synchronous failures produced by the
alignment asserts (either the assert itself failing, or the index comparison
inside it raising on a length mismatch). -/
def OmicsError.isAlignment : OmicsError → Bool
  | .assertionFailed => true
  | .lengthMismatch => true
  | _ => false

/-- `all(a == b)` on two pandas indexes: pandas raises
`ValueError("Lengths must match to compare")` when the lengths differ;
otherwise the comparison is elementwise and `all` folds it. -/
def indexCompareAll (a b : List String) : Except OmicsError Bool :=
  if a.length = b.length then
    .ok ((a.zip b).all fun p => p.1 == p.2)
  else
    .error .lengthMismatch

/-- Metadata: `eSet.meta`, a `pd.Series` of string keys and values. -/
abbrev Meta := List (String × String)

/-- The `ExpressionSet` entity: assay matrix, feature table, phenotype table,
metadata. -/
structure ExpressionSet where
  exprs : DataFrame
  fData : DataFrame
  pData : DataFrame
  meta : Meta
  deriving DecidableEq

/-- Body of the `fData` setter:
`assert df is None or all(df.index == self._exprs.index)`, then
`self._fData = df if df is not None else pd.DataFrame()`. -/
def checkFData (exprs : DataFrame) (df : Option DataFrame) :
    Except OmicsError DataFrame :=
  match df with
  | none => .ok emptyDF
  | some d => do
      let ok ← indexCompareAll d.index exprs.index
      if ok then .ok d else .error .assertionFailed

/-- Body of the `pData` setter:
`assert df is None or all(df.index == self._exprs.columns)`, then
`self._pData = df if df is not None else pd.DataFrame()`. -/
def checkPData (exprs : DataFrame) (df : Option DataFrame) :
    Except OmicsError DataFrame :=
  match df with
  | none => .ok emptyDF
  | some d => do
      let ok ← indexCompareAll d.index exprs.columns
      if ok then .ok d else .error .assertionFailed

/-- The `fData` property setter applied to an existing instance. -/
def ExpressionSet.setFData (E : ExpressionSet) (df : Option DataFrame) :
    Except OmicsError ExpressionSet := do
  let f ← checkFData E.exprs df
  .ok { E with fData := f }

/-- The `pData` property setter applied to an existing instance. -/
def ExpressionSet.setPData (E : ExpressionSet) (df : Option DataFrame) :
    Except OmicsError ExpressionSet := do
  let p ← checkPData E.exprs df
  .ok { E with pData := p }

/-- The `exprs` property setter: `assert isinstance(df, pd.DataFrame)` (always
satisfied in the embedding, where the argument is a dataframe by type), then
`self._exprs = df`.  No alignment with `fData`/`pData` is checked. -/
def ExpressionSet.setExprs (E : ExpressionSet) (df : DataFrame) :
    Except OmicsError ExpressionSet :=
  .ok { E with exprs := df }

/-- `ExpressionSet.__init__`: assigns `exprs`, then `fData`, then `pData`
through the property setters, then stores the keyword metadata. -/
def ExpressionSet.construct (exprs : DataFrame) (fData pData : Option DataFrame)
    (meta : Meta) : Except OmicsError ExpressionSet := do
  let f ← checkFData exprs fData
  let p ← checkPData exprs pData
  .ok ⟨exprs, f, p, meta⟩

/-- `ExpressionSet.__contains__`:
`item in self._exprs or item in self._exprs.index`; on a pandas dataframe,
`item in df` tests column-label membership. -/
def ExpressionSet.mem (E : ExpressionSet) (item : String) : Bool :=
  E.exprs.columns.contains item || E.exprs.index.contains item

end Omics

namespace Omics

/- ## First claims: alignment on construction and assignment -/

theorem zip_self_all_beq (a : List String) :
    ((a.zip a).all fun p => p.1 == p.2) = true := by
  induction a with
  | nil => rfl
  | cons x xs ih => simp [List.all_cons, ih]

theorem indexCompareAll_self (a : List String) :
    indexCompareAll a a = .ok true := by
  simp [indexCompareAll, zip_self_all_beq]

theorem indexCompareAll_ok_true_iff (a b : List String) :
    indexCompareAll a b = .ok true ↔ a = b := by
  constructor
  · intro h
    unfold indexCompareAll at h
    split at h
    · rename_i hlen
      simp only [Except.ok.injEq] at h
      -- pointwise equality on a zip of equal-length lists forces list equality
      induction a generalizing b with
      | nil => cases b with
        | nil => rfl
        | cons y ys => simp at hlen
      | cons x xs ih =>
        cases b with
        | nil => simp at hlen
        | cons y ys =>
          simp only [List.zip_cons_cons, List.all_cons, Bool.and_eq_true,
            beq_iff_eq] at h
          simp only [List.length_cons, Nat.succ.injEq] at hlen
          have := ih ys hlen h.2
          simp [h.1, this]
    · exact absurd h (by simp)
  · rintro rfl
    exact indexCompareAll_self a

theorem checkFData_aligned {exprs d : DataFrame} (h : d.index = exprs.index) :
    checkFData exprs (some d) = .ok d := by
  simp [checkFData, h, indexCompareAll_self, Bind.bind, Except.bind]

theorem checkPData_aligned {exprs d : DataFrame} (h : d.index = exprs.columns) :
    checkPData exprs (some d) = .ok d := by
  simp [checkPData, h, indexCompareAll_self, Bind.bind, Except.bind]

theorem checkFData_misaligned {exprs d : DataFrame} (h : d.index ≠ exprs.index) :
    ∃ e, checkFData exprs (some d) = .error e ∧ e.isAlignment = true := by
  unfold checkFData indexCompareAll
  by_cases hlen : d.index.length = exprs.index.length
  · refine ⟨.assertionFailed, ?_, rfl⟩
    have hall : ((d.index.zip exprs.index).all fun p => p.1 == p.2) = false := by
      by_contra hc
      rw [Bool.not_eq_false] at hc
      exact h ((indexCompareAll_ok_true_iff _ _).1 (by simp [indexCompareAll, hlen, hc]))
    simp [hlen, hall, Bind.bind, Except.bind]
  · exact ⟨.lengthMismatch, by simp [hlen, Bind.bind, Except.bind], rfl⟩

theorem checkPData_misaligned {exprs d : DataFrame} (h : d.index ≠ exprs.columns) :
    ∃ e, checkPData exprs (some d) = .error e ∧ e.isAlignment = true := by
  unfold checkPData indexCompareAll
  by_cases hlen : d.index.length = exprs.columns.length
  · refine ⟨.assertionFailed, ?_, rfl⟩
    have hall : ((d.index.zip exprs.columns).all fun p => p.1 == p.2) = false := by
      by_contra hc
      rw [Bool.not_eq_false] at hc
      exact h ((indexCompareAll_ok_true_iff _ _).1 (by simp [indexCompareAll, hlen, hc]))
    simp [hlen, hall, Bind.bind, Except.bind]
  · exact ⟨.lengthMismatch, by simp [hlen, Bind.bind, Except.bind], rfl⟩

theorem setFData_isOk_iff (E : ExpressionSet) (d : DataFrame) :
    (E.setFData (some d)).isOk = true ↔ d.index = E.exprs.index := by
  constructor
  · intro h
    by_contra hne
    obtain ⟨e, he, -⟩ := @checkFData_misaligned E.exprs d hne
    simp [ExpressionSet.setFData, he, Bind.bind, Except.bind, Except.isOk,
      Except.toBool] at h
  · intro h
    simp [ExpressionSet.setFData, checkFData_aligned h, Bind.bind, Except.bind,
      Except.isOk, Except.toBool]

theorem setPData_isOk_iff (E : ExpressionSet) (d : DataFrame) :
    (E.setPData (some d)).isOk = true ↔ d.index = E.exprs.columns := by
  constructor
  · intro h
    by_contra hne
    obtain ⟨e, he, -⟩ := @checkPData_misaligned E.exprs d hne
    simp [ExpressionSet.setPData, he, Bind.bind, Except.bind, Except.isOk,
      Except.toBool] at h
  · intro h
    simp [ExpressionSet.setPData, checkPData_aligned h, Bind.bind, Except.bind,
      Except.isOk, Except.toBool]

/-- C1: constructing an `ExpressionSet` with a non-None `fData` whose index
differs from the feature index of `exprs` (any value mismatch or any
permutation, including a different length) fails with an alignment error;
with an exactly equal, same-order index it succeeds; and the same check is
re-applied on every later `fData`/`pData` attribute assignment. -/
theorem construct_alignment_checked (ex fd : DataFrame) (pdf : Option DataFrame)
    (meta : Meta) :
    (fd.index ≠ ex.index →
      ∃ e, ExpressionSet.construct ex (some fd) pdf meta = .error e ∧
        e.isAlignment = true)
    ∧ (fd.index = ex.index →
      ExpressionSet.construct ex (some fd) none meta = .ok ⟨ex, fd, emptyDF, meta⟩)
    ∧ (∀ E : ExpressionSet, ∀ d : DataFrame,
        (E.setFData (some d)).isOk = true ↔ d.index = E.exprs.index)
    ∧ (∀ E : ExpressionSet, ∀ d : DataFrame,
        (E.setPData (some d)).isOk = true ↔ d.index = E.exprs.columns) := by
  refine ⟨?_, ?_, setFData_isOk_iff, setPData_isOk_iff⟩
  · intro hne
    obtain ⟨e, he, halign⟩ := @checkFData_misaligned ex fd hne
    exact ⟨e, by simp [ExpressionSet.construct, he, Bind.bind, Except.bind], halign⟩
  · intro heq
    simp [ExpressionSet.construct, checkFData_aligned heq, checkPData,
      Bind.bind, Except.bind]

/-- Sample 2x2 assay frame: features g1, g2; samples s1, s2. -/
def exG : DataFrame :=
  ⟨["g1", "g2"],
   [⟨"s1", .integer, [.int 1, .int 2]⟩, ⟨"s2", .integer, [.int 3, .int 4]⟩]⟩

/-- A feature table indexed `[g2, g1]`: same label set as `exG`, other order. -/
def fdPermuted : DataFrame :=
  ⟨["g2", "g1"], [⟨"chr", .object, [.str "2", .str "1"]⟩]⟩

/-- A feature table indexed `[g1, g2]`, exactly aligned with `exG`. -/
def fdAligned : DataFrame :=
  ⟨["g1", "g2"], [⟨"chr", .object, [.str "1", .str "2"]⟩]⟩

theorem construct_alignment_checked_witness :
    (∃ e, ExpressionSet.construct exG (some fdPermuted) none [] = .error e ∧
        e.isAlignment = true)
    ∧ ExpressionSet.construct exG (some fdAligned) none [] =
        .ok ⟨exG, fdAligned, emptyDF, []⟩ :=
  ⟨(construct_alignment_checked exG fdPermuted none []).1 (by decide),
   (construct_alignment_checked exG fdAligned none []).2.1 (by decide)⟩

/- ## C2: the `exprs` setter performs no shape or alignment check -/

/-- A replacement assay frame with a single, different feature. -/
def exSmall : DataFrame := ⟨["h9"], [⟨"s1", .integer, [.int 7]⟩]⟩

/-- An `ExpressionSet` with aligned, non-empty `fData`. -/
def esetAligned : ExpressionSet := ⟨exG, fdAligned, emptyDF, []⟩

/-- C2 counterexample: assigning a replacement `exprs` whose shape and labels
differ from the existing `fData` alignment is NOT rejected — the setter
succeeds, the shape changes and `fData` is left misaligned. -/
theorem exprs_setter_shape_change_accepted :
    (esetAligned.setExprs exSmall).isOk = true
    ∧ esetAligned.setExprs exSmall =
        .ok ⟨exSmall, fdAligned, emptyDF, []⟩
    ∧ exSmall.index ≠ esetAligned.exprs.index
    ∧ fdAligned.index ≠ exSmall.index := by
  refine ⟨rfl, rfl, by decide, by decide⟩

/-- C2 amended: the `exprs` setter checks only that the assigned value is a
dataframe; it always succeeds, replacing `exprs` and leaving `fData`, `pData`
and the metadata unchanged, with no shape or alignment validation — so the
shape of `exprs` can change after construction by plain attribute assignment,
not only via `subset`. -/
theorem exprs_setter_unchecked (E : ExpressionSet) (df : DataFrame) :
    E.setExprs df = .ok { E with exprs := df } := rfl

/- ## C5: dual-key containment -/

/-- C5: `x in eSet` is true iff `x` is a sample (column) label or a feature
(row-index) label of `exprs`. -/
theorem contains_iff_sample_or_feature (E : ExpressionSet) (x : String) :
    E.mem x = true ↔ x ∈ E.exprs.columns ∨ x ∈ E.exprs.index := by
  simp [ExpressionSet.mem, List.contains, or_comm]

/- ## Label-based selection and `subset` -/

/-- `df.loc[labels]` (row selection by a list of labels, assuming the
requested labels occur in a unique index): the result is indexed by `labels`
in the given order, and each column keeps the cell of the matching source
row.  The fallback cell is unreachable when every label occurs. -/
def DataFrame.locRows (df : DataFrame) (labels : List String) : DataFrame :=
  ⟨labels,
   df.cols.map fun c =>
     { c with values := labels.map fun l => c.values.getD (df.index.indexOf l) (.str "") }⟩

/-- `df.loc[:, labels]` (column selection by a list of labels): keeps the
columns named by `labels`, in the given order.  The fallback column is
unreachable when every label names a column. -/
def DataFrame.locCols (df : DataFrame) (labels : List String) : DataFrame :=
  ⟨df.index,
   labels.map fun l => (df.cols.find? fun c => c.name == l).getD ⟨l, .object, []⟩⟩

/-- `ExpressionSet.subset(features, samples)`:
`exprs = self._exprs.loc[features, samples]`;
`fData = self._fData.loc[features] if not self._fData.empty else pd.DataFrame()`;
`pData = self._pData.loc[samples] if not self._pData.empty else pd.DataFrame()`;
`return ExpressionSet(exprs, fData, pData, **self.meta)`.
Note that the constructor receives a (possibly empty) dataframe, never None. -/
def ExpressionSet.subset (E : ExpressionSet) (features samples : List String) :
    Except OmicsError ExpressionSet :=
  let ex := (E.exprs.locRows features).locCols samples
  let fd := if !E.fData.empty then E.fData.locRows features else emptyDF
  let pdt := if !E.pData.empty then E.pData.locRows samples else emptyDF
  ExpressionSet.construct ex (some fd) (some pdt) E.meta

/-- The `ExpressionSet` obtained by constructing from `exG` alone
(`fData`/`pData` omitted, hence both empty). -/
def esetNoF : ExpressionSet := ⟨exG, emptyDF, emptyDF, []⟩

/-- C4 failing input: on an `ExpressionSet` whose `fData`/`pData` are empty
(the default when they are omitted at construction), `subset` feeds the empty
dataframe — not None — back into the constructor, whose alignment assert
compares the empty index with the selected feature list and raises the
length-mismatch error.  `subset` therefore fails instead of returning a new
instance with empty `fData`/`pData`. -/
theorem subset_empty_fData_raises :
    ExpressionSet.construct exG none none [] = .ok esetNoF
    ∧ esetNoF.subset ["g1", "g2"] ["s1", "s2"] = .error .lengthMismatch :=
  ⟨rfl, rfl⟩

/- ## The on-disk columnar (HDF5) store -/

/-- A `pd.HDFStore`: named dataframes plus named series (the metadata table
lives under a series key; the keys used by the bridge are disjoint). -/
structure HDFStore where
  frames : List (String × DataFrame)
  series : List (String × Meta)
  deriving DecidableEq

/-- `store[key]` for a dataframe: raises `KeyError` when the key is absent. -/
def HDFStore.getFrame (st : HDFStore) (k : String) : Except OmicsError DataFrame :=
  match st.frames.find? fun p => p.1 == k with
  | some p => .ok p.2
  | none => .error (.keyError k)

/-- `store[key]` for a series: raises `KeyError` when the key is absent. -/
def HDFStore.getSeries (st : HDFStore) (k : String) : Except OmicsError Meta :=
  match st.series.find? fun p => p.1 == k with
  | some p => .ok p.2
  | none => .error (.keyError k)

/-- `s[k] = v` on a series/dict: overwrite the existing entry, or append. -/
def seriesSet (s : Meta) (k v : String) : Meta :=
  if s.any fun p => p.1 == k then
    s.map fun p => if p.1 == k then (k, v) else p
  else s ++ [(k, v)]

/-- `ExpressionSet2HDF5`: stores the assay matrix unconditionally under
`exprs`, and `fData`/`pData`/`meta` only when the corresponding table is
non-empty. -/
def ExpressionSet2HDF5 (E : ExpressionSet) : HDFStore :=
  { frames := [("exprs", E.exprs)]
      ++ (if !E.fData.empty then [("fData", E.fData)] else [])
      ++ (if !E.pData.empty then [("pData", E.pData)] else []),
    series := if !E.meta.isEmpty then [("meta", E.meta)] else [] }

/-- `HDF52ExpressionSet(HDF5, exprs='exprs', fData='fData', pData='pData',
meta='meta')`: reads `store[exprs]`; reads each optional table only when its
key parameter is a string (`store[k]`, raising `KeyError` if absent), else
uses None/`{}`; sets `meta['source']` to the store path; constructs the
`ExpressionSet` (which re-checks alignment). -/
def HDF52ExpressionSet (store : HDFStore) (path : String) (exprs : String)
    (fData pData meta : Option String) : Except OmicsError ExpressionSet := do
  let hdfExprs ← store.getFrame exprs
  let hdfFData ← match fData with
    | some k => do
        let d ← store.getFrame k
        pure (some d)
    | none => pure none
  let hdfPData ← match pData with
    | some k => do
        let d ← store.getFrame k
        pure (some d)
    | none => pure none
  let hdfMeta ← match meta with
    | some k => store.getSeries k
    | none => pure ([] : Meta)
  ExpressionSet.construct hdfExprs hdfFData hdfPData (seriesSet hdfMeta "source" path)

/-- A store holding only the assay matrix (what `ExpressionSet2HDF5` writes
for an `ExpressionSet` with empty `fData`/`pData`/`meta`). -/
def storeOnlyExprs : HDFStore := ⟨[("exprs", exG)], []⟩

/-- C3 counterexample: when the feature table is absent from the store and the
reader is invoked with its default string keys, the load FAILS with a
`KeyError` on `fData` — the missing optional table does not default to an
empty table. -/
theorem missing_fData_key_raises :
    HDF52ExpressionSet storeOnlyExprs "f.h5" "exprs"
      (some "fData") (some "pData") (some "meta") = .error (.keyError "fData") :=
  rfl

/-- C3 amended: an optional table defaults to an empty table (and the metadata
to an empty mapping holding only the `source` entry) only when the caller
passes None as that table's key parameter; a missing assay matrix is an
error, and a missing optional table requested by a string key is equally a
`KeyError`, aborting the load. -/
theorem optional_tables_default_only_for_none_keys (store : HDFStore) (path : String) :
    (∀ X, store.getFrame "exprs" = .ok X →
      HDF52ExpressionSet store path "exprs" none none none =
        .ok ⟨X, emptyDF, emptyDF, [("source", path)]⟩)
    ∧ (∀ e, store.getFrame "exprs" = .error e →
      HDF52ExpressionSet store path "exprs" none none none = .error e)
    ∧ (∀ X k pk mk, store.getFrame "exprs" = .ok X →
        store.getFrame k = .error (.keyError k) →
      HDF52ExpressionSet store path "exprs" (some k) pk mk =
        .error (.keyError k)) := by
  refine ⟨?_, ?_, ?_⟩
  · intro X h
    simp [HDF52ExpressionSet, h, Bind.bind, Except.bind, Pure.pure, Except.pure,
      ExpressionSet.construct, checkFData, checkPData, seriesSet]
  · intro e h
    simp [HDF52ExpressionSet, h, Bind.bind, Except.bind, Pure.pure, Except.pure]
  · intro X k pk mk h hk
    simp [HDF52ExpressionSet, h, hk, Bind.bind, Except.bind, Pure.pure, Except.pure]

/-- The empty store. -/
def storeEmpty : HDFStore := ⟨[], []⟩

theorem optional_tables_default_only_for_none_keys_witness :
    HDF52ExpressionSet storeOnlyExprs "f.h5" "exprs" none none none =
      .ok ⟨exG, emptyDF, emptyDF, [("source", "f.h5")]⟩
    ∧ HDF52ExpressionSet storeEmpty "f.h5" "exprs" none none none =
      .error (.keyError "exprs")
    ∧ HDF52ExpressionSet storeOnlyExprs "f.h5" "exprs"
        (some "fData") none none = .error (.keyError "fData") :=
  ⟨(optional_tables_default_only_for_none_keys storeOnlyExprs "f.h5").1 exG rfl,
   (optional_tables_default_only_for_none_keys storeEmpty "f.h5").2.1
     (.keyError "exprs") rfl,
   (optional_tables_default_only_for_none_keys storeOnlyExprs "f.h5").2.2
     exG "fData" none none rfl rfl⟩

/- ## C7: round trip through the on-disk store -/

/-- A phenotype table indexed `[s1, s2]`, aligned with `exG`'s columns. -/
def pdAligned : DataFrame :=
  ⟨["s1", "s2"], [⟨"sex", .object, [.str "M", .str "F"]⟩]⟩

/-- An `ExpressionSet` with non-empty `fData`/`pData` but empty metadata. -/
def esetFP : ExpressionSet := ⟨exG, fdAligned, pdAligned, []⟩

/-- An `ExpressionSet` with non-empty `fData`/`pData` and metadata. -/
def esetTitled : ExpressionSet := ⟨exG, fdAligned, pdAligned, [("title", "demo")]⟩

/-- C7 counterexample: for an `ExpressionSet` with non-empty `fData`/`pData`
but EMPTY metadata, the writer skips the `meta` key, and reading back with the
default keys fails with a `KeyError` on `meta` — the round trip does not hold
for every such `ExpressionSet`. -/
theorem roundtrip_empty_meta_fails :
    HDF52ExpressionSet (ExpressionSet2HDF5 esetFP) "f.h5" "exprs"
      (some "fData") (some "pData") (some "meta") = .error (.keyError "meta") :=
  rfl

/-- C7 amended: the writer stores the assay matrix unconditionally and stores
`fData`/`pData`/metadata exactly when they are non-empty; and for every
aligned `ExpressionSet` whose `fData`, `pData` AND metadata are all non-empty,
writing then reading back with the default keys yields an `ExpressionSet`
whose `exprs`, `fData` and `pData` are value-equal to the original's (the
metadata additionally gains a `source` entry). -/
theorem hdf5_roundtrip (E : ExpressionSet) (path : String) :
    ((ExpressionSet2HDF5 E).frames.find? fun p => p.1 == "exprs") =
        some ("exprs", E.exprs)
    ∧ ("fData" ∈ (ExpressionSet2HDF5 E).frames.map Prod.fst ↔ E.fData.empty = false)
    ∧ ("pData" ∈ (ExpressionSet2HDF5 E).frames.map Prod.fst ↔ E.pData.empty = false)
    ∧ ("meta" ∈ (ExpressionSet2HDF5 E).series.map Prod.fst ↔ E.meta ≠ [])
    ∧ (E.fData.empty = false → E.pData.empty = false → E.meta ≠ [] →
        E.fData.index = E.exprs.index → E.pData.index = E.exprs.columns →
        ∃ E', HDF52ExpressionSet (ExpressionSet2HDF5 E) path "exprs"
            (some "fData") (some "pData") (some "meta") = .ok E'
          ∧ E'.exprs = E.exprs ∧ E'.fData = E.fData ∧ E'.pData = E.pData
          ∧ E'.meta = seriesSet E.meta "source" path) := by
  refine ⟨?_, ?_, ?_, ?_, ?_⟩
  · by_cases hf : E.fData.empty <;> by_cases hp : E.pData.empty <;>
      simp [ExpressionSet2HDF5, hf, hp, List.find?]
  · by_cases hf : E.fData.empty <;> by_cases hp : E.pData.empty <;>
      simp [ExpressionSet2HDF5, hf, hp]
  · by_cases hf : E.fData.empty <;> by_cases hp : E.pData.empty <;>
      simp [ExpressionSet2HDF5, hf, hp]
  · cases hE : E.meta with
    | nil => simp [ExpressionSet2HDF5, hE]
    | cons a as => simp [ExpressionSet2HDF5, hE]
  · intro hf hp hm halF halP
    have hm' : E.meta.isEmpty = false := by
      cases hE : E.meta with
      | nil => exact absurd hE hm
      | cons a as => rfl
    refine ⟨⟨E.exprs, E.fData, E.pData, seriesSet E.meta "source" path⟩,
      ?_, rfl, rfl, rfl, rfl⟩
    simp [HDF52ExpressionSet, ExpressionSet2HDF5, hf, hp, hm',
      HDFStore.getFrame, HDFStore.getSeries, List.find?,
      Bind.bind, Except.bind, Pure.pure, Except.pure, ExpressionSet.construct,
      checkFData_aligned halF, checkPData_aligned halP]

theorem hdf5_roundtrip_witness :
    ∃ E', HDF52ExpressionSet (ExpressionSet2HDF5 esetTitled) "f.h5" "exprs"
        (some "fData") (some "pData") (some "meta") = .ok E'
      ∧ E'.exprs = esetTitled.exprs ∧ E'.fData = esetTitled.fData
      ∧ E'.pData = esetTitled.pData
      ∧ E'.meta = seriesSet esetTitled.meta "source" "f.h5" :=
  (hdf5_roundtrip esetTitled "f.h5").2.2.2.2
    (by decide) (by decide) (by decide) (by decide) (by decide)

/- ## C8: assigning None resets to an empty table -/

/-- C8: assigning the sentinel `None` to `fData` or `pData` never fails: it
resets that attribute to the empty dataframe and leaves every other attribute
(`exprs`, the other table, the metadata) unchanged. -/
theorem set_none_resets_empty (E : ExpressionSet) :
    E.setFData none = .ok { E with fData := emptyDF }
    ∧ E.setPData none = .ok { E with pData := emptyDF } :=
  ⟨rfl, rfl⟩

/- ## Categorical inference (`_parse_rdataframe`) -/

/-- The `factor_cols` argument of `_parse_rdataframe`: `'auto'`, `None`, or an
explicit list of column names. -/
inductive FactorMode where
  | auto
  | none
  | explicitCols : List String → FactorMode

/-- The `'auto'` branch: `n = df.shape[0]`;
`subdf = df.select_dtypes(include=['integer', 'object'])`;
`factor_cols = [k for k, v in subdf.iteritems() if n > 10 * len(set(v))]`. -/
def autoFactorCols (df : DataFrame) : List String :=
  ((df.cols.filter fun c => c.dtype == .integer || c.dtype == .object).filter
    fun c => 10 * c.values.dedup.length < df.index.length).map Column.name

/-- The marking loop: `for k in factor_cols: df[k] = df[k].astype('category')`;
reading `df[k]` for a name that is not a column raises `KeyError`. -/
def markCategorical (df : DataFrame) : List String → Except OmicsError DataFrame
  | [] => .ok df
  | k :: ks =>
      if df.columns.contains k then
        markCategorical
          ⟨df.index,
           df.cols.map fun c =>
             if c.name == k then { c with dtype := .category } else c⟩
          ks
      else .error (.keyError k)

/-- `_parse_rdataframe(rdf, factor_cols)` after the foreign frame has been
converted (the conversion itself is the identity on the tabular content):
`'auto'` computes the heuristic column list, then `if factor_cols:` runs the
marking loop; `None` and the empty list leave the frame untouched. -/
def parse_rdataframe (df : DataFrame) (mode : FactorMode) :
    Except OmicsError DataFrame :=
  match mode with
  | .auto => markCategorical df (autoFactorCols df)
  | .none => .ok df
  | .explicitCols ks => if ks.isEmpty then .ok df else markCategorical df ks

/-- Specification-side description of the marking loop: every column whose
name is listed becomes categorical, every other column is unchanged. -/
def markAll (df : DataFrame) (ks : List String) : DataFrame :=
  ⟨df.index,
   df.cols.map fun c =>
     if ks.contains c.name then { c with dtype := .category } else c⟩

theorem markAll_nil (df : DataFrame) : markAll df [] = df := by
  simp [markAll]

theorem columns_mark_one (df : DataFrame) (k : String) :
    (DataFrame.columns
      ⟨df.index,
       df.cols.map fun c =>
         if c.name == k then { c with dtype := Dtype.category } else c⟩) =
      df.columns := by
  simp only [DataFrame.columns, List.map_map]
  refine List.map_congr_left fun c _ => ?_
  by_cases h : c.name = k <;> simp [h]

theorem markAll_mark_one (df : DataFrame) (k : String) (ks : List String) :
    markAll
      ⟨df.index,
       df.cols.map fun c =>
         if c.name == k then { c with dtype := Dtype.category } else c⟩ ks =
      markAll df (k :: ks) := by
  simp only [markAll, List.map_map]
  refine congrArg (fun l => DataFrame.mk df.index l) ?_
  refine List.map_congr_left fun c _ => ?_
  by_cases hk : c.name = k
  · by_cases hks : ks.contains c.name <;>
      simp [hk, hks, List.contains_cons]
  · have hk' : (c.name == k) = false := by simp [hk]
    by_cases hks : ks.contains c.name <;>
      simp [hk, hk', hks, List.contains_cons, Ne.symm hk]

theorem markCategorical_eq_markAll :
    ∀ (ks : List String) (df : DataFrame), (∀ k ∈ ks, k ∈ df.columns) →
      markCategorical df ks = .ok (markAll df ks) := by
  intro ks
  induction ks with
  | nil => intro df _; simp [markCategorical, markAll_nil]
  | cons k ks ih =>
    intro df h
    have hk : df.columns.contains k = true :=
      List.elem_eq_true_of_mem (h k (by simp))
    rw [markCategorical, if_pos hk, ih, markAll_mark_one]
    intro k' hk'
    rw [columns_mark_one]
    exact h k' (by simp [hk'])

theorem autoFactorCols_subset (df : DataFrame) :
    ∀ k ∈ autoFactorCols df, k ∈ df.columns := by
  intro k hk
  simp only [autoFactorCols, List.mem_map, List.mem_filter] at hk
  obtain ⟨c, ⟨⟨hc, -⟩, -⟩, rfl⟩ := hk
  exact List.mem_map_of_mem Column.name hc

/-- C6: under `'auto'` inference on a table with `n` rows and uniquely named
columns, a column is put on the categorical list iff its dtype is integer or
generic object and `n` exceeds 10 times its number of distinct values (so
floating-point columns are never auto-marked), and the result marks exactly
that list; under `None` mode no column is altered; under an explicit list of
existing column names, exactly those columns are marked categorical, without
inspection of their contents. -/
theorem categorical_inference_modes (df : DataFrame) (hnd : df.columns.Nodup) :
    (∀ c ∈ df.cols,
      (c.name ∈ autoFactorCols df ↔
        ((c.dtype = .integer ∨ c.dtype = .object) ∧
          10 * c.values.dedup.length < df.index.length)))
    ∧ parse_rdataframe df .auto = .ok (markAll df (autoFactorCols df))
    ∧ parse_rdataframe df .none = .ok df
    ∧ (∀ ks, (∀ k ∈ ks, k ∈ df.columns) →
        parse_rdataframe df (.explicitCols ks) = .ok (markAll df ks)) := by
  refine ⟨?_, ?_, rfl, ?_⟩
  · intro c hc
    constructor
    · intro hmem
      simp only [autoFactorCols, List.mem_map, List.mem_filter,
        Bool.or_eq_true, beq_iff_eq, decide_eq_true_eq] at hmem
      obtain ⟨c', ⟨⟨hc', hdt⟩, hcard⟩, hname⟩ := hmem
      have : c' = c := List.inj_on_of_nodup_map hnd hc' hc hname
      subst this
      exact ⟨hdt, hcard⟩
    · intro ⟨hdt, hcard⟩
      simp only [autoFactorCols, List.mem_map, List.mem_filter]
      exact ⟨c, ⟨⟨hc, by simpa using hdt⟩, by simpa using hcard⟩, rfl⟩
  · exact markCategorical_eq_markAll _ df (autoFactorCols_subset df)
  · intro ks hks
    cases ks with
    | nil => simp [parse_rdataframe, markAll_nil]
    | cons k ks =>
      rw [parse_rdataframe, if_neg (by simp)]
      exact markCategorical_eq_markAll _ df hks

theorem categorical_inference_modes_witness :
    fdAligned.columns.Nodup
    ∧ parse_rdataframe fdAligned .none = .ok fdAligned
    ∧ parse_rdataframe fdAligned (.explicitCols ["chr"]) =
        .ok (markAll fdAligned ["chr"]) :=
  ⟨by decide,
   (categorical_inference_modes fdAligned (by decide)).2.2.1,
   (categorical_inference_modes fdAligned (by decide)).2.2.2 ["chr"]
     (by decide)⟩

/-- C9: categorical inference is deterministic — for one fixed input table,
two runs of `'auto'` inference compute the same categorical-column list and
the same resulting frame; the decision depends only on the table's contents. -/
theorem auto_inference_deterministic (df₁ df₂ : DataFrame) (h : df₁ = df₂) :
    autoFactorCols df₁ = autoFactorCols df₂
    ∧ parse_rdataframe df₁ .auto = parse_rdataframe df₂ .auto := by
  subst h; exact ⟨rfl, rfl⟩

theorem auto_inference_deterministic_witness :
    autoFactorCols pdAligned = autoFactorCols pdAligned
    ∧ parse_rdataframe pdAligned .auto = parse_rdataframe pdAligned .auto :=
  auto_inference_deterministic pdAligned pdAligned rfl

/- ## C10: the human-readable summary (`__str__`) -/

/-- `series.get(key, default)`. -/
def metaGet (m : Meta) (k d : String) : String :=
  match m.find? fun p => p.1 == k with
  | some p => p.2
  | none => d

/-- `idx[0]`: the first entry of a pandas index; raises `IndexError` on an
empty index. -/
def posFirst (l : List String) : Except OmicsError String :=
  match l with
  | [] => .error .indexError
  | x :: _ => .ok x

/-- `idx[-1]`: the last entry of a pandas index; raises `IndexError` on an
empty index. -/
def posLast (l : List String) : Except OmicsError String :=
  match l.getLast? with
  | some x => .ok x
  | none => .error .indexError

/-- The summary text of `__str__` once the four boundary labels are in hand:
title line (default `'ExpressionSet instance'`), the three table shapes, the
first/last feature and sample labels, then one `k: v` line per non-title
metadata entry. -/
def summaryString (E : ExpressionSet) (f0 fn s0 sn : String) : String :=
  metaGet E.meta "title" "ExpressionSet instance" ++ "\n" ++
  "exprs: " ++ toString E.exprs.index.length ++ " features, " ++
    toString E.exprs.cols.length ++ " samples\n" ++
  "fData: " ++ toString E.fData.index.length ++ " features, " ++
    toString E.fData.cols.length ++ " attributes\n" ++
  "pData: " ++ toString E.pData.index.length ++ " samples, " ++
    toString E.pData.cols.length ++ " variables\n" ++
  "features: " ++ f0 ++ ", ..., " ++ fn ++ "\n" ++
  "samples: " ++ s0 ++ ", ..., " ++ sn ++ "\n" ++
  String.intercalate "\n"
    ((E.meta.filter fun p => p.1 != "title").map fun p => p.1 ++ ": " ++ p.2)

/-- `ExpressionSet.__str__` (also `__repr__` and hence `describe`): the format
arguments are evaluated left to right, so `exprs.index[0]`, `exprs.index[-1]`,
`exprs.columns[0]`, `exprs.columns[-1]` are read in that order before the
string is assembled. -/
def ExpressionSet.toStr (E : ExpressionSet) : Except OmicsError String := do
  let f0 ← posFirst E.exprs.index
  let fn ← posLast E.exprs.index
  let s0 ← posFirst E.exprs.columns
  let sn ← posLast E.exprs.columns
  .ok (summaryString E f0 fn s0 sn)

theorem posFirst_of_ne_nil {l : List String} (h : l ≠ []) :
    posFirst l = .ok (l.head?.getD "") := by
  cases l with
  | nil => exact absurd rfl h
  | cons x xs => rfl

theorem posLast_of_ne_nil {l : List String} (h : l ≠ []) :
    posLast l = .ok (l.getLast?.getD "") := by
  cases hL : l.getLast? with
  | none => exact absurd (List.getLast?_eq_none_iff.1 hL) h
  | some x => simp [posLast, hL]

/-- C10: the summary is only defined for an `ExpressionSet` whose `exprs` has
at least one row and at least one column — then it is the string with the
title, the three table shapes, the first/last feature and sample labels and
the non-title metadata pairs; when `exprs` has zero rows or zero columns it
fails with an index-out-of-range error while reading those labels. -/
theorem describe_defined_iff_nonempty (E : ExpressionSet) :
    (E.exprs.index ≠ [] → E.exprs.columns ≠ [] →
      E.toStr = .ok (summaryString E (E.exprs.index.head?.getD "")
        (E.exprs.index.getLast?.getD "") (E.exprs.columns.head?.getD "")
        (E.exprs.columns.getLast?.getD "")))
    ∧ (E.exprs.index = [] ∨ E.exprs.columns = [] →
      E.toStr = .error .indexError) := by
  constructor
  · intro hI hC
    simp [ExpressionSet.toStr, posFirst_of_ne_nil hI, posLast_of_ne_nil hI,
      posFirst_of_ne_nil hC, posLast_of_ne_nil hC, Bind.bind, Except.bind]
  · intro h
    by_cases hI : E.exprs.index = []
    · simp [ExpressionSet.toStr, hI, posFirst, Bind.bind, Except.bind]
    · have hC : E.exprs.columns = [] := h.resolve_left hI
      have h1 : posFirst E.exprs.columns = .error .indexError := by rw [hC]; rfl
      simp [ExpressionSet.toStr, posFirst_of_ne_nil hI, posLast_of_ne_nil hI,
        h1, Bind.bind, Except.bind]

/-- An `ExpressionSet` whose assay matrix has zero rows and zero columns. -/
def esetEmptyExprs : ExpressionSet := ⟨emptyDF, emptyDF, emptyDF, []⟩

theorem describe_defined_iff_nonempty_witness :
    esetAligned.toStr = .ok (summaryString esetAligned
        (esetAligned.exprs.index.head?.getD "")
        (esetAligned.exprs.index.getLast?.getD "")
        (esetAligned.exprs.columns.head?.getD "")
        (esetAligned.exprs.columns.getLast?.getD ""))
    ∧ esetEmptyExprs.toStr = .error .indexError :=
  ⟨(describe_defined_iff_nonempty esetAligned).1 (by decide) (by decide),
   (describe_defined_iff_nonempty esetEmptyExprs).2 (Or.inl rfl)⟩

end Omics
